import Mathlib

/-!
Shallow embedding of dbexp's `cmd/main.go`: the table-schema data model, the
schema builder, the input collector (name resolution and prompt validation),
the command dispatch of `main`, and the serialization boundary (the canonical
textual encoding of a schema and its inverse).
-/

/-- Type `DataType` from `main.go` (lines 87-92): string-tagged enumeration with
the variants `uuid` and `timestamp`. -/
inductive DataType where
  | uuid
  | timestamp
deriving DecidableEq, Repr

/-- The lowercase tag of a `DataType` (the Go constant values `"uuid"` and
`"timestamp"`), as a character list. -/
def DataType.chars : DataType → List Char
  | .uuid => "uuid".data
  | .timestamp => "timestamp".data

/-- A 128-bit unique identifier (`github.com/google/uuid`), modelled as a
natural number; a generated identifier is below `2 ^ 128 = 16 ^ 32`. -/
abbrev UUID := Nat

/-- Struct `TableField` from `main.go` (lines 100-106). -/
structure TableField where
  id : UUID
  data_type : DataType
  unique : Bool
  required : Bool
  automatic : Bool
deriving DecidableEq, Repr

/-- Struct `TableSchema` from `main.go` (lines 94-98). The Go `map[string]TableField`
is modelled as an association list; the literal built in `main` has the three
pairwise-distinct keys `id`, `created_at`, `updated_at`. -/
structure TableSchema where
  id : UUID
  name : String
  fields : List (String × TableField)
deriving DecidableEq, Repr

/-- The schema value constructed in `main` (lines 49-73): a fresh table
identifier and the three automatic fields, each with its own fresh identifier.
`gen k` stands for the result of the `(k+1)`-th call of `uuid.New()`, in
source order; `unique` is left at its zero value `false` for the two
timestamp fields, exactly as in the Go literal. -/
def build_table_schema (name : String) (gen : Nat → UUID) : TableSchema :=
  { id := gen 0
    name := name
    fields :=
      [ ("id",
          { id := gen 1, data_type := .uuid,
            unique := true, required := true, automatic := true })
      , ("created_at",
          { id := gen 2, data_type := .timestamp,
            unique := false, required := true, automatic := true })
      , ("updated_at",
          { id := gen 3, data_type := .timestamp,
            unique := false, required := true, automatic := true }) ] }

/-- The validation closure handed to the input field (lines 32-37): it rejects
exactly the empty string, with the message from the source. -/
def validateName (s : String) : Option String :=
  if s = "" then some "table name cannot be empty" else none

/-- Modelled from the spec: the external `huh` form (not part of this
repository) is an interactive loop that re-asks while validation fails and
returns the first accepted submission. `attempts` lists the operator's
successive submissions; exhausting them models the operator aborting the
prompt, which surfaces as `none`. -/
def promptLoop (validate : String → Option String) : List String → Option String
  | [] => none
  | s :: rest =>
    match validate s with
    | some _ => promptLoop validate rest
    | none => some s

/-- Whether `main` runs the interactive prompt: the `name == ""` guard on
line 26. -/
def promptUsed (preset : String) : Bool := preset == ""

/-- Name resolution in `main` (lines 24-46): a non-empty `--name` preset is
used unchanged and the prompt never runs; an empty preset hands control to the
validated prompt. `none` means the operator aborted the prompt. -/
def resolveTableName (preset : String) (attempts : List String) : Option String :=
  if preset = "" then promptLoop validateName attempts else some preset

/-- The lowercase hexadecimal digit character for `n < 16`. -/
def hexDigit (n : Nat) : Char :=
  if n < 10 then Char.ofNat (48 + n) else Char.ofNat (87 + n)

/-- Big-endian fixed-width hexadecimal rendering of `n % 16 ^ len` in exactly
`len` digits. -/
def toHexBE : Nat → Nat → List Char
  | 0, _ => []
  | l + 1, n => hexDigit (n / 16 ^ l % 16) :: toHexBE l (n % 16 ^ l)

/-- The canonical 8-4-4-4-12 textual form of a 128-bit identifier
(`uuid.UUID.String`). -/
def uuidChars (n : Nat) : List Char :=
  toHexBE 8 (n / 16 ^ 24)
    ++ '-' :: toHexBE 4 (n / 16 ^ 20)
    ++ '-' :: toHexBE 4 (n / 16 ^ 16)
    ++ '-' :: toHexBE 4 (n / 16 ^ 12)
    ++ '-' :: toHexBE 12 n

/-- TOML rendering of a boolean. -/
def boolChars : Bool → List Char
  | true => "true".data
  | false => "false".data

/-- TOML basic-string escaping of `"` and `\`; other characters of a printable
name are emitted verbatim. -/
def escapeChars : List Char → List Char
  | [] => []
  | c :: cs =>
    if c = '"' ∨ c = '\\' then '\\' :: c :: escapeChars cs
    else c :: escapeChars cs

/-- Byte-wise lexicographic order on keys, the order in which the encoder
emits map entries. -/
def charsLE : List Char → List Char → Bool
  | [], _ => true
  | _ :: _, [] => false
  | a :: as, b :: bs =>
    if a.toNat < b.toNat then true
    else if b.toNat < a.toNat then false
    else charsLE as bs

/-- Insertion step of the key sort. -/
def insertField (p : String × TableField) :
    List (String × TableField) → List (String × TableField)
  | [] => [p]
  | q :: qs => if charsLE p.1.data q.1.data then p :: q :: qs else q :: insertField p qs

/-- Modelled from the spec: the external TOML encoder (go-toml v2, not part of
this repository) emits the entries of a Go map sorted by key, since a Go map
has no usable insertion order. -/
def sortFields : List (String × TableField) → List (String × TableField)
  | [] => []
  | p :: ps => insertField p (sortFields ps)

/-- Literal fragments of the textual format, shared by the encoder and the
parser. -/
def kIdLead : List Char := "id = \"".data

/-- Lead of a `name` line. -/
def kNameLead : List Char := "name = \"".data

/-- Lead of a `type` line. -/
def kTypeLead : List Char := "type = \"".data

/-- Lead of a `unique` line. -/
def kUniqueLead : List Char := "unique = ".data

/-- Lead of a `required` line. -/
def kRequiredLead : List Char := "required = ".data

/-- Lead of an `automatic` line. -/
def kAutomaticLead : List Char := "automatic = ".data

/-- Lead of a block header. -/
def kFieldsLead : List Char := "[fields.".data

/-- Closing double quote. -/
def kQuote : List Char := "\"".data

/-- Closing bracket of a block header. -/
def kRBracket : List Char := "]".data

/-- The `[fields.<key>]` block for one field: the header plus the five
key/value lines. Every boolean is written out, whatever its value: the Go
struct tags carry no `omitempty`. -/
def fieldLines (key : List Char) (f : TableField) : List (List Char) :=
  [ kFieldsLead ++ key ++ kRBracket
  , kIdLead ++ uuidChars f.id ++ kQuote
  , kTypeLead ++ f.data_type.chars ++ kQuote
  , kUniqueLead ++ boolChars f.unique
  , kRequiredLead ++ boolChars f.required
  , kAutomaticLead ++ boolChars f.automatic ]

/-- Modelled from the spec: the lines of the canonical textual encoding of a
schema (the format of spec section 6, with go-toml v2 conventions: the
top-level keys first, one block per field, blocks sorted by key, a blank line
before each block). -/
def marshalLines (s : TableSchema) : List (List Char) :=
  [ kIdLead ++ uuidChars s.id ++ kQuote
  , kNameLead ++ escapeChars s.name.data ++ kQuote ]
  ++ (sortFields s.fields).flatMap (fun p => [] :: fieldLines p.1.data p.2)

/-- Join lines with newline characters. -/
def joinNl : List (List Char) → List Char
  | [] => []
  | [l] => l
  | l :: ls => l ++ '\n' :: joinNl ls

/-- Split a character list at newline characters. -/
def splitNl : List Char → List (List Char)
  | [] => [[]]
  | c :: cs =>
    if c = '\n' then [] :: splitNl cs
    else
      match splitNl cs with
      | l :: ls => (c :: l) :: ls
      | [] => [[c]]

/-- The serialized TOML document of a schema. -/
def tomlMarshal (s : TableSchema) : String := String.mk (joinNl (marshalLines s))

/-- Consume an expected leading character sequence. -/
def eatLead : List Char → List Char → Option (List Char)
  | [], cs => some cs
  | _ :: _, [] => none
  | a :: ps, c :: cs => if c = a then eatLead ps cs else none

/-- Consume one expected character. -/
def eatChar (c : Char) : List Char → Option (List Char)
  | [] => none
  | d :: ds => if d = c then some ds else none

/-- The value of a lowercase hexadecimal digit character. -/
def hexVal (c : Char) : Option Nat :=
  if 48 ≤ c.toNat ∧ c.toNat ≤ 57 then some (c.toNat - 48)
  else if 97 ≤ c.toNat ∧ c.toNat ≤ 102 then some (c.toNat - 87)
  else none

/-- Read exactly `k` hexadecimal digits into an accumulator. -/
def parseHex : Nat → Nat → List Char → Option (Nat × List Char)
  | 0, acc, cs => some (acc, cs)
  | _ + 1, _, [] => none
  | k + 1, acc, c :: cs =>
    match hexVal c with
    | some v => parseHex k (acc * 16 + v) cs
    | none => none

/-- Read a canonical 8-4-4-4-12 identifier. -/
def parseUUID (cs0 : List Char) : Option (Nat × List Char) := do
  let (a, cs1) ← parseHex 8 0 cs0
  let cs2 ← eatChar '-' cs1
  let (b, cs3) ← parseHex 4 0 cs2
  let cs4 ← eatChar '-' cs3
  let (c, cs5) ← parseHex 4 0 cs4
  let cs6 ← eatChar '-' cs5
  let (d, cs7) ← parseHex 4 0 cs6
  let cs8 ← eatChar '-' cs7
  let (e, cs9) ← parseHex 12 0 cs8
  some (a * 16 ^ 24 + b * 16 ^ 20 + c * 16 ^ 16 + d * 16 ^ 12 + e, cs9)

/-- Parse a whole line of the form `<lead><uuid>"`. -/
def parseUUIDLine (lead : List Char) (l : List Char) : Option Nat := do
  let cs ← eatLead lead l
  let (n, cs2) ← parseUUID cs
  let cs3 ← eatChar '"' cs2
  if cs3 = [] then some n else none

/-- Worker for reading a basic string: the flag records whether the previous
character was an unconsumed backslash, in which case the next character is
taken literally. -/
def parseStrAux : Bool → List Char → Option (List Char × List Char)
  | _, [] => none
  | true, c :: cs =>
    match parseStrAux false cs with
    | some (s, rest) => some (c :: s, rest)
    | none => none
  | false, c :: cs =>
    if c = '"' then some ([], cs)
    else if c = '\\' then parseStrAux true cs
    else
      match parseStrAux false cs with
      | some (s, rest) => some (c :: s, rest)
      | none => none

/-- Read the content of a basic string up to its closing quote, undoing the
escaping of `escapeChars`. -/
def parseBasicString : List Char → Option (List Char × List Char) :=
  parseStrAux false

/-- Parse the `name = "<string>"` line. -/
def parseNameLine (l : List Char) : Option (List Char) := do
  let cs ← eatLead kNameLead l
  let (s, rest) ← parseBasicString cs
  if rest = [] then some s else none

/-- Parse the `type = "<tag>"` line back into a `DataType`. -/
def parseTypeLine (l : List Char) : Option DataType := do
  let cs ← eatLead kTypeLead l
  if cs = "uuid\"".data then some DataType.uuid
  else if cs = "timestamp\"".data then some DataType.timestamp
  else none

/-- Parse a `<lead>true` or `<lead>false` line. -/
def parseBoolLine (lead : List Char) (l : List Char) : Option Bool := do
  let cs ← eatLead lead l
  if cs = "true".data then some true
  else if cs = "false".data then some false
  else none

/-- Read a block-header key up to the closing bracket, which must end the
line. -/
def takeKey : List Char → Option (List Char)
  | [] => none
  | c :: cs =>
    if c = ']' then if cs = [] then some [] else none
    else
      match takeKey cs with
      | some k => some (c :: k)
      | none => none

/-- Parse one `[fields.<key>]` block from its six lines: the header line and
the five key/value lines. -/
def parseFieldBlock (hdr l1 l2 l3 l4 l5 : List Char) :
    Option (List Char × TableField) := do
  let keyPart ← eatLead kFieldsLead hdr
  let key ← takeKey keyPart
  let fid ← parseUUIDLine kIdLead l1
  let dt ← parseTypeLine l2
  let u ← parseBoolLine kUniqueLead l3
  let r ← parseBoolLine kRequiredLead l4
  let a ← parseBoolLine kAutomaticLead l5
  some (key, { id := fid, data_type := dt, unique := u, required := r, automatic := a })

/-- Parse the remaining field blocks, each preceded by a blank line. -/
def parseFieldBlocks : List (List Char) → Option (List (List Char × TableField))
  | [] => some []
  | [] :: hdr :: l1 :: l2 :: l3 :: l4 :: l5 :: rest => do
    let kf ← parseFieldBlock hdr l1 l2 l3 l4 l5
    let fs ← parseFieldBlocks rest
    some (kf :: fs)
  | _ => none

/-- Parse the lines of a serialized schema. -/
def parseSchemaLines : List (List Char) → Option TableSchema
  | l0 :: l1 :: rest => do
    let tid ← parseUUIDLine kIdLead l0
    let nm ← parseNameLine l1
    let fs ← parseFieldBlocks rest
    some { id := tid, name := String.mk nm,
           fields := fs.map (fun p => (String.mk p.1, p.2)) }
  | _ => none

/-- Modelled from the spec: parsing the canonical textual encoding back into a
schema, the inverse of the grammar that `tomlMarshal` emits (spec section 6
round-trip contract). -/
def tomlParse (s : String) : Option TableSchema := parseSchemaLines (splitNl s.data)

/-- The `init table` branch of `main` (lines 24-80), as the list of lines the
program prints to stdout. `marshal` stands for the external `toml.Marshal`,
which may reject the value; the error line format follows
`fmt.Println("Error:", err)` and the abort error of the form library. -/
def runInitTable (preset : String) (attempts : List String)
    (marshal : TableSchema → Except String String) (gen : Nat → UUID) : List String :=
  match resolveTableName preset attempts with
  | none => ["Error: user aborted"]
  | some name =>
    match marshal (build_table_schema name gen) with
    | Except.error e => ["Table Name: " ++ name, "Error: " ++ e]
    | Except.ok cfg => ["Table Name: " ++ name, cfg]

/-- Result of running `main`: either printed output or a Go panic. -/
inductive MainOutcome where
  | output (lines : List String)
  | panicked (msg : String)
deriving DecidableEq, Repr

/-- The command dispatch of `main` (lines 22-84): `init table` runs the flow
above; every other parsed command reaches the `default` branch and panics
with the command string. -/
def runMain (cmd : String) (nameFlag : String) (attempts : List String)
    (marshal : TableSchema → Except String String) (gen : Nat → UUID) : MainOutcome :=
  if cmd = "init table" then MainOutcome.output (runInitTable nameFlag attempts marshal gen)
  else MainOutcome.panicked cmd

/-- Whether a printed line is an error report (begins with `Error: `). -/
def isErrLine (l : String) : Bool := l.data.take 7 == "Error: ".data

/-- Helper: a value accepted by the prompt loop under the empty-name
validation is never the empty string. -/
theorem promptLoop_validateName_ne_empty :
    ∀ (attempts : List String) (v : String),
      promptLoop validateName attempts = some v → v ≠ "" := by
  intro attempts
  induction attempts with
  | nil => intro v hv; cases hv
  | cons s rest ih =>
    intro v hv
    by_cases hs : s = ""
    · subst hs
      simp only [promptLoop, validateName, if_pos rfl] at hv
      exact ih v hv
    · simp only [promptLoop, validateName, if_neg hs] at hv
      cases hv
      exact hs

/-- C1: for every non-empty input name `N`, `build_table_schema` returns a
schema whose name is `N` and whose field map holds exactly the three entries
`id`, `created_at`, `updated_at`, where `id` is a UUID field with
`unique = true`, `required = true`, `automatic = true`, and the two timestamp
fields have `required = true`, `automatic = true`, `unique = false`. -/
theorem c1_build_table_schema (N : String) (gen : Nat → UUID) (h : N ≠ "") :
    (build_table_schema N gen).name = N ∧
    (build_table_schema N gen).fields.map Prod.fst = ["id", "created_at", "updated_at"] ∧
    (build_table_schema N gen).fields.lookup "id" =
      some { id := gen 1, data_type := .uuid,
             unique := true, required := true, automatic := true } ∧
    (build_table_schema N gen).fields.lookup "created_at" =
      some { id := gen 2, data_type := .timestamp,
             unique := false, required := true, automatic := true } ∧
    (build_table_schema N gen).fields.lookup "updated_at" =
      some { id := gen 3, data_type := .timestamp,
             unique := false, required := true, automatic := true } := by
  exact ⟨rfl, rfl, rfl, rfl, rfl⟩

/-- Witness for C1 at the concrete name `users`. -/
theorem c1_witness :
    (build_table_schema "users" (fun i => i)).name = "users" ∧
    (build_table_schema "users" (fun i => i)).fields.map Prod.fst =
      ["id", "created_at", "updated_at"] ∧
    (build_table_schema "users" (fun i => i)).fields.lookup "id" =
      some { id := 1, data_type := .uuid,
             unique := true, required := true, automatic := true } ∧
    (build_table_schema "users" (fun i => i)).fields.lookup "created_at" =
      some { id := 2, data_type := .timestamp,
             unique := false, required := true, automatic := true } ∧
    (build_table_schema "users" (fun i => i)).fields.lookup "updated_at" =
      some { id := 3, data_type := .timestamp,
             unique := false, required := true, automatic := true } :=
  c1_build_table_schema "users" (fun i => i) (by decide)

/-- C2: when the identifier generator yields fresh values (successive calls
never repeat), the table identifier and the identifiers of the three
automatic fields are pairwise distinct. -/
theorem c2_fresh_ids_distinct (N : String) (gen : Nat → UUID)
    (hfresh : Function.Injective gen) :
    List.Pairwise (fun a b => a ≠ b)
      ((build_table_schema N gen).id ::
        (build_table_schema N gen).fields.map (fun p => p.2.id)) := by
  have h : ∀ i j : Nat, i ≠ j → gen i ≠ gen j :=
    fun i j hij hg => hij (hfresh hg)
  refine List.Pairwise.cons ?_ (List.Pairwise.cons ?_ (List.Pairwise.cons ?_ ?_))
  · intro b hb
    simp only [build_table_schema, List.map_cons, List.map_nil, List.mem_cons,
      List.not_mem_nil, or_false] at hb
    rcases hb with rfl | rfl | rfl
    · exact h 0 1 (by omega)
    · exact h 0 2 (by omega)
    · exact h 0 3 (by omega)
  · intro b hb
    simp only [build_table_schema, List.map_cons, List.map_nil, List.mem_cons,
      List.not_mem_nil, or_false] at hb
    rcases hb with rfl | rfl
    · exact h 1 2 (by omega)
    · exact h 1 3 (by omega)
  · intro b hb
    simp only [build_table_schema, List.map_cons, List.map_nil, List.mem_cons,
      List.not_mem_nil, or_false] at hb
    rcases hb with rfl
    exact h 2 3 (by omega)
  · exact List.pairwise_singleton _ _

/-- Witness for C2 with the identity generator. -/
theorem c2_witness :
    List.Pairwise (fun a b => a ≠ b)
      ((build_table_schema "users" (fun i => i)).id ::
        (build_table_schema "users" (fun i => i)).fields.map (fun p => p.2.id)) :=
  c2_fresh_ids_distinct "users" (fun i => i) (fun _ _ hg => hg)

/-- C5: a non-empty preset name is returned unchanged, the prompt guard does
not fire, and the result does not depend on what the operator would have
typed. -/
theorem c5_nonempty_preset (preset : String) (h : preset ≠ "")
    (attempts attempts2 : List String) :
    resolveTableName preset attempts = some preset ∧
    promptUsed preset = false ∧
    resolveTableName preset attempts = resolveTableName preset attempts2 := by
  refine ⟨?_, ?_, ?_⟩
  · simp [resolveTableName, h]
  · simp [promptUsed, h]
  · simp [resolveTableName, h]

/-- Witness for C5 at the preset `orders`. -/
theorem c5_witness :
    resolveTableName "orders" [] = some "orders" ∧
    promptUsed "orders" = false ∧
    resolveTableName "orders" [] = resolveTableName "orders" ["x"] :=
  c5_nonempty_preset "orders" (by decide) [] ["x"]

/-- C6: an empty preset fires the prompt guard and routes resolution through
the validated prompt; the validation rejects an empty submission and the loop
re-asks; consequently a resolved name, hence any name passed to
`build_table_schema`, is never empty. -/
theorem c6_empty_preset_prompts (attempts : List String) :
    promptUsed "" = true ∧
    resolveTableName "" attempts = promptLoop validateName attempts ∧
    (∀ rest, promptLoop validateName ("" :: rest) = promptLoop validateName rest) ∧
    (∀ preset v, resolveTableName preset attempts = some v → v ≠ "") := by
  refine ⟨rfl, by simp [resolveTableName], fun rest => rfl, ?_⟩
  intro preset v hv
  by_cases hp : preset = ""
  · subst hp
    simp only [resolveTableName, if_pos rfl] at hv
    exact promptLoop_validateName_ne_empty attempts v hv
  · simp only [resolveTableName, if_neg hp] at hv
    cases hv
    exact hp

/-- Witness for C6: the operator first submits an empty string, the loop
re-asks, and the accepted value `users` is non-empty. -/
theorem c6_witness :
    promptUsed "" = true ∧ ("users" : String) ≠ "" :=
  ⟨(c6_empty_preset_prompts ["", "users"]).1,
   (c6_empty_preset_prompts ["", "users"]).2.2.2 "" "users" rfl⟩

/-- C8: the prompt validation errors exactly on the empty string, so a
whitespace-only submission is accepted, and a whitespace-only preset counts
as non-empty and is used unchanged without prompting. -/
theorem c8_validation_iff_empty :
    (∀ s : String, (validateName s).isSome ↔ s = "") ∧
    validateName " " = none ∧
    (∀ attempts, resolveTableName " " attempts = some " " ∧ promptUsed " " = false) := by
  refine ⟨fun s => ?_, rfl, fun attempts => ⟨?_, rfl⟩⟩
  · by_cases h : s = "" <;> simp [validateName, h]
  · simp [resolveTableName]

/-- Witness for C8 at the empty and the one-space string. -/
theorem c8_witness :
    (validateName "").isSome ∧ validateName " " = none ∧
    resolveTableName " " [] = some " " :=
  ⟨(c8_validation_iff_empty.1 "").mpr rfl, c8_validation_iff_empty.2.1,
   (c8_validation_iff_empty.2.2 []).1⟩

/-- C10: every parsed command other than `init table` reaches the `default`
branch and panics with the command string. -/
theorem c10_unknown_command_panics (cmd : String) (h : cmd ≠ "init table")
    (nameFlag : String) (attempts : List String)
    (marshal : TableSchema → Except String String) (gen : Nat → UUID) :
    runMain cmd nameFlag attempts marshal gen = MainOutcome.panicked cmd := by
  simp [runMain, h]

/-- Witness for C10 at the command `init`. -/
theorem c10_witness :
    runMain "init" "" [] (fun _ => Except.ok "") (fun _ => 0) =
      MainOutcome.panicked "init" :=
  c10_unknown_command_panics "init" (by decide) "" [] (fun _ => Except.ok "") (fun _ => 0)

/-- C4 counterexample: the claim that every error ends the operation with no
output other than the error report is false on the serialization-failure
path: `main` prints the `Table Name:` line before calling the serializer, so
when the serializer rejects the value the trace holds that line as well. -/
theorem c4_counterexample :
    ¬ (∀ (preset : String) (attempts : List String)
        (marshal : TableSchema → Except String String) (gen : Nat → UUID),
        (∃ l ∈ runInitTable preset attempts marshal gen, isErrLine l = true) →
        (runInitTable preset attempts marshal gen).length = 1) := by
  intro hclaim
  have hrun : runInitTable "users" [] (fun _ => Except.error "boom") (fun _ => 0) =
      ["Table Name: users", "Error: boom"] := by decide
  have hlen := hclaim "users" [] (fun _ => Except.error "boom") (fun _ => 0)
    ⟨"Error: boom", by rw [hrun]; exact List.mem_cons_of_mem _ (List.mem_singleton_self _),
      by decide⟩
  rw [hrun] at hlen
  exact absurd hlen (by decide)

/-- C4 amended: an aborted prompt ends the operation with the error report as
the only output; a serialization failure ends it with the error report and no
schema text, though the `Table Name:` line printed before serialization has
already been emitted. -/
theorem c4_amended (preset : String) (attempts : List String)
    (marshal : TableSchema → Except String String) (gen : Nat → UUID) :
    (resolveTableName preset attempts = none →
      runInitTable preset attempts marshal gen = ["Error: user aborted"]) ∧
    (∀ name e, resolveTableName preset attempts = some name →
      marshal (build_table_schema name gen) = Except.error e →
      runInitTable preset attempts marshal gen =
        ["Table Name: " ++ name, "Error: " ++ e]) := by
  constructor
  · intro h
    simp [runInitTable, h]
  · intro name e h1 h2
    simp [runInitTable, h1, h2]

/-- Witness for C4 amended: an aborted prompt and a rejected serialization,
each at a concrete input. -/
theorem c4_witness :
    runInitTable "" [] (fun _ => Except.ok "cfg") (fun _ => 0) =
      ["Error: user aborted"] ∧
    runInitTable "users" [] (fun _ => Except.error "boom") (fun _ => 0) =
      ["Table Name: " ++ "users", "Error: " ++ "boom"] :=
  ⟨(c4_amended "" [] (fun _ => Except.ok "cfg") (fun _ => 0)).1 rfl,
   (c4_amended "users" [] (fun _ => Except.error "boom") (fun _ => 0)).2
     "users" "boom" rfl rfl⟩

/-- Helper: consuming an expected lead succeeds exactly on that lead. -/
theorem eatLead_append : ∀ (p cs : List Char), eatLead p (p ++ cs) = some cs := by
  intro p
  induction p with
  | nil => intro cs; rfl
  | cons a ps ih => intro cs; simp [eatLead, ih]

/-- Helper: a hexadecimal digit character decodes to its value. -/
theorem hexVal_hexDigit (d : Nat) (hd : d < 16) : hexVal (hexDigit d) = some d := by
  interval_cases d <;> decide

/-- Helper: reading back a fixed-width hexadecimal rendering. -/
theorem parseHex_toHexBE :
    ∀ (k acc n : Nat) (rest : List Char),
      parseHex k acc (toHexBE k n ++ rest) = some (acc * 16 ^ k + n % 16 ^ k, rest) := by
  intro k
  induction k with
  | zero => intro acc n rest; simp [toHexBE, parseHex, Nat.mod_one]
  | succ l ih =>
    intro acc n rest
    have hd : n / 16 ^ l % 16 < 16 := Nat.mod_lt _ (by norm_num)
    simp only [toHexBE, List.cons_append, parseHex, hexVal_hexDigit _ hd, List.append_eq]
    rw [ih]
    refine congrArg (fun x => some (x, rest)) ?_
    have h1 : (n % 16 ^ l) % 16 ^ l = n % 16 ^ l := Nat.mod_mod_of_dvd _ dvd_rfl
    have h2 : n % 16 ^ (l + 1) = n % 16 ^ l + 16 ^ l * (n / 16 ^ l % 16) := by
      rw [pow_succ, Nat.mod_mul]
    rw [h1, h2, pow_succ]
    ring

/-- Helper: splitting off one four-digit chunk of a division chain. -/
theorem hex_chunk (n j k : Nat) (h : k = j + 4) :
    n / 16 ^ k * 16 ^ 4 + n / 16 ^ j % 16 ^ 4 = n / 16 ^ j := by
  subst h
  rw [pow_add, ← Nat.div_div_eq_div_mul]
  exact Nat.div_add_mod' (n / 16 ^ j) (16 ^ 4)

/-- Helper: recomposing the five segments of a canonical identifier. -/
theorem uuid_recomp (n : Nat) (hn : n < 16 ^ 32) :
    n / 16 ^ 24 % 16 ^ 8 * 16 ^ 24 + n / 16 ^ 20 % 16 ^ 4 * 16 ^ 20
      + n / 16 ^ 16 % 16 ^ 4 * 16 ^ 16 + n / 16 ^ 12 % 16 ^ 4 * 16 ^ 12
      + n % 16 ^ 12 = n := by
  have h8 : n / 16 ^ 24 < 16 ^ 8 := by
    apply Nat.div_lt_of_lt_mul
    calc n < 16 ^ 32 := hn
      _ = 16 ^ 24 * 16 ^ 8 := by rw [← pow_add]
  rw [Nat.mod_eq_of_lt h8]
  have h20 := hex_chunk n 20 24 (by norm_num)
  have h16 := hex_chunk n 16 20 (by norm_num)
  have h12 := hex_chunk n 12 16 (by norm_num)
  have hfin := Nat.div_add_mod' n (16 ^ 12)
  conv_rhs => rw [← hfin, ← h12, ← h16, ← h20]
  ring

/-- Helper: reading back a canonical identifier rendering. -/
theorem parseUUID_uuidChars (n : Nat) (hn : n < 16 ^ 32) (rest : List Char) :
    parseUUID (uuidChars n ++ rest) = some (n, rest) := by
  have harr : uuidChars n ++ rest
      = toHexBE 8 (n / 16 ^ 24) ++ ('-' ::
        (toHexBE 4 (n / 16 ^ 20) ++ ('-' ::
        (toHexBE 4 (n / 16 ^ 16) ++ ('-' ::
        (toHexBE 4 (n / 16 ^ 12) ++ ('-' ::
        (toHexBE 12 n ++ rest)))))))) := by
    simp [uuidChars, List.append_assoc]
  rw [harr]
  simp [parseUUID, parseHex_toHexBE, eatChar]
  omega

/-- Helper: reading back a whole identifier line. -/
theorem parseUUIDLine_lines (lead : List Char) (n : Nat) (hn : n < 16 ^ 32) :
    parseUUIDLine lead (lead ++ (uuidChars n ++ kQuote)) = some n := by
  simp only [parseUUIDLine, eatLead_append, Option.bind_eq_bind, Option.some_bind]
  rw [parseUUID_uuidChars n hn]
  simp [eatChar, kQuote]

/-- Helper: reading back an escaped string closed by a quote. -/
theorem parseStrAux_escape :
    ∀ (s rest : List Char),
      parseStrAux false (escapeChars s ++ '"' :: rest) = some (s, rest) := by
  intro s
  induction s with
  | nil => intro rest; simp [escapeChars, parseStrAux]
  | cons c cs ih =>
    intro rest
    by_cases hc : c = '"' ∨ c = '\\'
    · simp [escapeChars, hc, parseStrAux,
        if_neg (by decide : ¬ ('\\' : Char) = '"'), ih]
    · have h1 : ¬ c = '"' := fun h => hc (Or.inl h)
      have h2 : ¬ c = '\\' := fun h => hc (Or.inr h)
      simp [escapeChars, hc, parseStrAux, h1, h2, ih]

/-- Helper: reading back a whole name line. -/
theorem parseNameLine_lines (s : List Char) :
    parseNameLine (kNameLead ++ (escapeChars s ++ kQuote)) = some s := by
  simp only [parseNameLine, eatLead_append, Option.bind_eq_bind, Option.some_bind]
  have h : escapeChars s ++ kQuote = escapeChars s ++ '"' :: ([] : List Char) := rfl
  rw [h]
  have h2 : parseBasicString (escapeChars s ++ '"' :: ([] : List Char)) = some (s, []) :=
    parseStrAux_escape s []
  rw [h2]
  simp

/-- Helper: hexadecimal digit characters have code points at least 48. -/
theorem hexDigit_ge (d : Nat) (hd : d < 16) : 48 ≤ (hexDigit d).toNat := by
  interval_cases d <;> decide

/-- Helper: characters of a hexadecimal rendering have code points at
least 48. -/
theorem toHexBE_mem_ge :
    ∀ (l n : Nat) (c : Char), c ∈ toHexBE l n → 48 ≤ c.toNat := by
  intro l
  induction l with
  | zero => intro n c hc; cases hc
  | succ k ih =>
    intro n c hc
    rcases List.mem_cons.mp hc with rfl | h
    · exact hexDigit_ge _ (Nat.mod_lt _ (by norm_num))
    · exact ih _ c h

/-- Helper: characters of a canonical identifier have code points at
least 45. -/
theorem uuidChars_ge (n : Nat) : ∀ c ∈ uuidChars n, 45 ≤ c.toNat := by
  intro c hc
  have hhex : ∀ (l m : Nat), c ∈ toHexBE l m → 45 ≤ c.toNat :=
    fun l m h => le_trans (by norm_num) (toHexBE_mem_ge l m c h)
  simp only [uuidChars, List.mem_append, List.mem_cons] at hc
  rcases hc with ((((h | rfl | h) | rfl | h) | rfl | h) | rfl | h)
  · exact hhex _ _ h
  · decide
  · exact hhex _ _ h
  · decide
  · exact hhex _ _ h
  · decide
  · exact hhex _ _ h
  · decide
  · exact hhex _ _ h

/-- Helper: escaping only inserts backslashes. -/
theorem escapeChars_mem :
    ∀ (s : List Char) (c : Char), c ∈ escapeChars s → c ∈ s ∨ c = '\\' := by
  intro s
  induction s with
  | nil => intro c hc; cases hc
  | cons a as ih =>
    intro c hc
    by_cases ha : a = '"' ∨ a = '\\'
    · simp only [escapeChars, if_pos ha] at hc
      rcases List.mem_cons.mp hc with rfl | hc2
      · exact Or.inr rfl
      · rcases List.mem_cons.mp hc2 with rfl | hc3
        · exact Or.inl (List.mem_cons_self _ _)
        · rcases ih c hc3 with h | h
          · exact Or.inl (List.mem_cons_of_mem _ h)
          · exact Or.inr h
    · simp only [escapeChars, if_neg ha] at hc
      rcases List.mem_cons.mp hc with rfl | hc2
      · exact Or.inl (List.mem_cons_self _ _)
      · rcases ih c hc2 with h | h
        · exact Or.inl (List.mem_cons_of_mem _ h)
        · exact Or.inr h

/-- Helper: splitting a line that contains no newline. -/
theorem splitNl_single : ∀ (l : List Char), '\n' ∉ l → splitNl l = [l] := by
  intro l
  induction l with
  | nil => intro _; rfl
  | cons c cs ih =>
    intro h
    have hc : ¬ c = '\n' := fun e => h (e ▸ List.mem_cons_self c cs)
    have hcs : '\n' ∉ cs := fun e => h (List.mem_cons_of_mem c e)
    simp only [splitNl, if_neg hc, ih hcs]

/-- Helper: splitting after a newline-free leading line. -/
theorem splitNl_pre :
    ∀ (l cs : List Char), '\n' ∉ l →
      splitNl (l ++ '\n' :: cs) = l :: splitNl cs := by
  intro l
  induction l with
  | nil => intro cs _; simp [splitNl]
  | cons c l2 ih =>
    intro cs h
    have hc : ¬ c = '\n' := fun e => h (e ▸ List.mem_cons_self c l2)
    have hl2 : '\n' ∉ l2 := fun e => h (List.mem_cons_of_mem c e)
    simp only [List.cons_append, splitNl, if_neg hc, List.append_eq, ih cs hl2]

/-- Helper: splitting inverts joining for newline-free lines. -/
theorem splitNl_joinNl :
    ∀ (ls : List (List Char)), ls ≠ [] → (∀ l ∈ ls, '\n' ∉ l) →
      splitNl (joinNl ls) = ls := by
  intro ls
  induction ls with
  | nil => intro h _; exact absurd rfl h
  | cons l ls ih =>
    intro _ hmem
    cases ls with
    | nil =>
      simp only [joinNl]
      exact splitNl_single l (hmem l (List.mem_cons_self _ _))
    | cons l2 ls2 =>
      have hjoin : joinNl (l :: l2 :: ls2) = l ++ '\n' :: joinNl (l2 :: ls2) := rfl
      rw [hjoin, splitNl_pre l _ (hmem l (List.mem_cons_self _ _))]
      rw [ih (by simp) (fun x hx => hmem x (List.mem_cons_of_mem _ hx))]

/-- Helper: reading back a type line. -/
theorem parseTypeLine_chars (dt : DataType) :
    parseTypeLine (kTypeLead ++ (dt.chars ++ kQuote)) = some dt := by
  cases dt <;> rfl

/-- Helper: reading back a boolean line. -/
theorem parseBoolLine_chars (lead : List Char) (b : Bool) :
    parseBoolLine lead (lead ++ boolChars b) = some b := by
  cases b <;> simp [parseBoolLine, eatLead_append, boolChars]

/-- Helper: reading back one serialized field block. -/
theorem parseFieldBlock_lines (key : List Char) (f : TableField)
    (hkey : takeKey (key ++ kRBracket) = some key)
    (hid : f.id < 16 ^ 32) :
    parseFieldBlock (kFieldsLead ++ key ++ kRBracket)
      (kIdLead ++ uuidChars f.id ++ kQuote)
      (kTypeLead ++ f.data_type.chars ++ kQuote)
      (kUniqueLead ++ boolChars f.unique)
      (kRequiredLead ++ boolChars f.required)
      (kAutomaticLead ++ boolChars f.automatic) = some (key, f) := by
  simp only [parseFieldBlock, List.append_assoc, eatLead_append,
    Option.bind_eq_bind, Option.some_bind, hkey,
    parseUUIDLine_lines _ _ hid, parseTypeLine_chars, parseBoolLine_chars]

/-- Helper: the serialized lines of a built schema, spelled out; the three
blocks appear in sorted key order. -/
theorem marshalLines_build (name : String) (gen : Nat → UUID) :
    marshalLines (build_table_schema name gen) =
      (kIdLead ++ uuidChars (gen 0) ++ kQuote) ::
      (kNameLead ++ escapeChars name.data ++ kQuote) ::
      [] ::
      (kFieldsLead ++ "created_at".data ++ kRBracket) ::
      (kIdLead ++ uuidChars (gen 2) ++ kQuote) ::
      (kTypeLead ++ DataType.chars DataType.timestamp ++ kQuote) ::
      (kUniqueLead ++ boolChars false) ::
      (kRequiredLead ++ boolChars true) ::
      (kAutomaticLead ++ boolChars true) ::
      [] ::
      (kFieldsLead ++ "id".data ++ kRBracket) ::
      (kIdLead ++ uuidChars (gen 1) ++ kQuote) ::
      (kTypeLead ++ DataType.chars DataType.uuid ++ kQuote) ::
      (kUniqueLead ++ boolChars true) ::
      (kRequiredLead ++ boolChars true) ::
      (kAutomaticLead ++ boolChars true) ::
      [] ::
      (kFieldsLead ++ "updated_at".data ++ kRBracket) ::
      (kIdLead ++ uuidChars (gen 3) ++ kQuote) ::
      (kTypeLead ++ DataType.chars DataType.timestamp ++ kQuote) ::
      (kUniqueLead ++ boolChars false) ::
      (kRequiredLead ++ boolChars true) ::
      (kAutomaticLead ++ boolChars true) :: [] := rfl

set_option maxHeartbeats 1000000 in
/-- Helper: no newline occurs in any serialized line of a built schema whose
name has no control characters. -/
theorem marshal_no_newline (name : String) (gen : Nat → UUID)
    (hname : ∀ c ∈ name.data, 32 ≤ c.toNat) :
    ∀ l ∈ marshalLines (build_table_schema name gen), '\n' ∉ l := by
  have huuid : ∀ (m : Nat), '\n' ∉ uuidChars m := by
    intro m h
    exact absurd (uuidChars_ge m _ h) (by decide)
  have hesc : '\n' ∉ escapeChars name.data := by
    intro h
    rcases escapeChars_mem name.data _ h with h2 | h2
    · exact absurd (hname _ h2) (by decide)
    · exact absurd h2 (by decide)
  have happ : ∀ {a b : List Char}, '\n' ∉ a → '\n' ∉ b → '\n' ∉ a ++ b := by
    intro a b ha hb h
    rcases List.mem_append.mp h with h | h
    · exact ha h
    · exact hb h
  intro l hl
  rw [marshalLines_build] at hl
  simp only [List.mem_cons, List.not_mem_nil, or_false] at hl
  rcases hl with rfl|rfl|rfl|rfl|rfl|rfl|rfl|rfl|rfl|rfl|rfl|rfl|rfl|rfl|rfl|rfl|rfl|rfl|rfl|rfl|rfl|rfl|rfl <;>
    first
      | decide
      | exact happ (happ (by decide) (huuid _)) (by decide)
      | exact happ (happ (by decide) hesc) (by decide)

set_option maxHeartbeats 2000000 in
/-- C3: serializing the schema built for a name and parsing the text back
yields a schema with the same name, the same table identifier, and the same
three automatic fields with identical flags, types and identifiers — the
round trip does not regenerate identifiers. The name is assumed free of
control characters and the generated identifiers are 128-bit values. -/
theorem c3_roundtrip (name : String) (gen : Nat → UUID)
    (hname : ∀ c ∈ name.data, 32 ≤ c.toNat)
    (hgen : ∀ i, i < 4 → gen i < 16 ^ 32) :
    ∃ s2 : TableSchema,
      tomlParse (tomlMarshal (build_table_schema name gen)) = some s2 ∧
      s2.name = (build_table_schema name gen).name ∧
      s2.id = (build_table_schema name gen).id ∧
      s2.fields.length = 3 ∧
      (∀ k, s2.fields.lookup k = (build_table_schema name gen).fields.lookup k) := by
  refine ⟨{ id := gen 0, name := name,
            fields :=
              [ ("created_at",
                  { id := gen 2, data_type := DataType.timestamp,
                    unique := false, required := true, automatic := true })
              , ("id",
                  { id := gen 1, data_type := DataType.uuid,
                    unique := true, required := true, automatic := true })
              , ("updated_at",
                  { id := gen 3, data_type := DataType.timestamp,
                    unique := false, required := true, automatic := true }) ] },
    ?_, rfl, rfl, rfl, ?_⟩
  · have hnl := marshal_no_newline name gen hname
    have hne : marshalLines (build_table_schema name gen) ≠ [] := by
      rw [marshalLines_build]
      exact List.cons_ne_nil _ _
    have hsplit := splitNl_joinNl _ hne hnl
    show parseSchemaLines (splitNl (joinNl (marshalLines (build_table_schema name gen)))) = _
    rw [hsplit, marshalLines_build]
    have h0 : parseUUIDLine kIdLead (kIdLead ++ uuidChars (gen 0) ++ kQuote) =
        some (gen 0) := by
      rw [List.append_assoc]
      exact parseUUIDLine_lines _ _ (hgen 0 (by norm_num))
    have hnm : parseNameLine (kNameLead ++ escapeChars name.data ++ kQuote) =
        some name.data := by
      rw [List.append_assoc]
      exact parseNameLine_lines name.data
    have hb1 : parseFieldBlock (kFieldsLead ++ "created_at".data ++ kRBracket)
        (kIdLead ++ uuidChars (gen 2) ++ kQuote)
        (kTypeLead ++ DataType.chars DataType.timestamp ++ kQuote)
        (kUniqueLead ++ boolChars false)
        (kRequiredLead ++ boolChars true)
        (kAutomaticLead ++ boolChars true)
        = some ("created_at".data,
            { id := gen 2, data_type := DataType.timestamp,
              unique := false, required := true, automatic := true }) :=
      parseFieldBlock_lines "created_at".data
        { id := gen 2, data_type := DataType.timestamp,
          unique := false, required := true, automatic := true }
        rfl (hgen 2 (by norm_num))
    have hb2 : parseFieldBlock (kFieldsLead ++ "id".data ++ kRBracket)
        (kIdLead ++ uuidChars (gen 1) ++ kQuote)
        (kTypeLead ++ DataType.chars DataType.uuid ++ kQuote)
        (kUniqueLead ++ boolChars true)
        (kRequiredLead ++ boolChars true)
        (kAutomaticLead ++ boolChars true)
        = some ("id".data,
            { id := gen 1, data_type := DataType.uuid,
              unique := true, required := true, automatic := true }) :=
      parseFieldBlock_lines "id".data
        { id := gen 1, data_type := DataType.uuid,
          unique := true, required := true, automatic := true }
        rfl (hgen 1 (by norm_num))
    have hb3 : parseFieldBlock (kFieldsLead ++ "updated_at".data ++ kRBracket)
        (kIdLead ++ uuidChars (gen 3) ++ kQuote)
        (kTypeLead ++ DataType.chars DataType.timestamp ++ kQuote)
        (kUniqueLead ++ boolChars false)
        (kRequiredLead ++ boolChars true)
        (kAutomaticLead ++ boolChars true)
        = some ("updated_at".data,
            { id := gen 3, data_type := DataType.timestamp,
              unique := false, required := true, automatic := true }) :=
      parseFieldBlock_lines "updated_at".data
        { id := gen 3, data_type := DataType.timestamp,
          unique := false, required := true, automatic := true }
        rfl (hgen 3 (by norm_num))
    simp only [parseSchemaLines, parseFieldBlocks, h0, hnm, hb1, hb2, hb3,
      Option.bind_eq_bind, Option.some_bind]
    rfl
  · intro k
    by_cases h1 : k = "id"
    · subst h1; rfl
    by_cases h2 : k = "created_at"
    · subst h2; rfl
    by_cases h3 : k = "updated_at"
    · subst h3; rfl
    have e1 : (k == "id") = false := beq_eq_false_iff_ne.mpr h1
    have e2 : (k == "created_at") = false := beq_eq_false_iff_ne.mpr h2
    have e3 : (k == "updated_at") = false := beq_eq_false_iff_ne.mpr h3
    simp [build_table_schema, List.lookup, e1, e2, e3]

/-- Witness for C3 at the name `users` with the identity generator. -/
theorem c3_witness :
    ∃ s2 : TableSchema,
      tomlParse (tomlMarshal (build_table_schema "users" (fun i => i))) = some s2 ∧
      s2.name = (build_table_schema "users" (fun i => i)).name ∧
      s2.id = (build_table_schema "users" (fun i => i)).id ∧
      s2.fields.length = 3 ∧
      (∀ k, s2.fields.lookup k =
        (build_table_schema "users" (fun i => i)).fields.lookup k) :=
  c3_roundtrip "users" (fun i => i) (by decide)
    (fun _ hi => lt_of_lt_of_le hi (by norm_num))

/-- C7 counterexample: in the serialized output of the schema built for
`users`, the field blocks do not appear in the insertion order `id`,
`created_at`, `updated_at` of the Go map literal. -/
theorem c7_counterexample :
    (marshalLines (build_table_schema "users" (fun _ => 0))).filter
        (fun l => l.head? == some '[') ≠
      ["[fields.id]".data, "[fields.created_at]".data,
       "[fields.updated_at]".data] := by
  decide

/-- C7 amended: for every invocation, the serialized output lists the field
blocks in sorted key order — `created_at`, then `id`, then `updated_at` —
because the fields live in a Go map and the encoder sorts map keys. -/
theorem c7_sorted_block_order (name : String) (gen : Nat → UUID) :
    (marshalLines (build_table_schema name gen)).filter
        (fun l => l.head? == some '[') =
      ["[fields.created_at]".data, "[fields.id]".data,
       "[fields.updated_at]".data] := rfl

/-- C9: every serialized field block carries all five keys `id`, `type`,
`unique`, `required`, `automatic`, whatever the field's values; in the
builder's output `unique = false` is written explicitly in the two timestamp
blocks rather than omitted, and `unique = true` in the primary-key block. -/
theorem c9_all_keys_always_written (key : List Char) (f : TableField)
    (name : String) (gen : Nat → UUID) :
    ((fieldLines key f).drop 1).map (fun l => l.takeWhile (fun c => c != ' ')) =
      ["id".data, "type".data, "unique".data, "required".data, "automatic".data] ∧
    (marshalLines (build_table_schema name gen)).count ("unique = false".data) = 2 ∧
    (marshalLines (build_table_schema name gen)).count ("unique = true".data) = 1 :=
  ⟨rfl, rfl, rfl⟩
